import Mathlib

/-!
Verification of the Safe-Link-AI prediction service core.

This file gives a shallow embedding, in Lean 4, of the request-validation,
label-codec, artifact-loading and inference-response logic of the repository
(`app.py`, `model_loader.py`, `column_selector.py`), and proves the spec's
testable properties against it.

Modelling conventions:
* Python / JSON values are modelled by the inductive `PyVal`.  Python `bool`
  is a distinct constructor, but every place where the source relies on the
  fact that `bool` is a subclass of `int` (`isinstance(v, (int, float))`,
  `isinstance(prediction, (int,))`, `int(b)`, `float(b)`) models that
  behaviour faithfully.
* Python floats are modelled as rationals (`ℚ`); string-to-float parsing
  models CPython `float(str)` on plain decimal literals (optional sign,
  integer part, optional fractional part) — exponents, `inf`/`nan`,
  underscores and surrounding whitespace are outside the modelled fragment,
  and no claim depends on them.  String-to-int parsing models CPython
  `int(str)` on optionally signed digit strings under the same caveat.
* Python dicts are modelled as association lists with first-match lookup and
  in-place update (`alookup`, `dictInsert`), matching dict key uniqueness and
  insertion-order semantics.
* Raising code is modelled with `Except String`; the per-process model cache
  is threaded explicitly as a `ModelCache` value.
-/

deriving instance DecidableEq for Except

/-- A Python/JSON value as it can occur in a request body, a label mapping or
a prediction result.  `pyList` and `pyDict` are kept abstract (their entries
are irrelevant to every modelled code path: a list or dict value only ever
fails `float(...)` / `int(...)` and is otherwise passed around opaquely). -/
inductive PyVal where
  | pyInt (n : Int)
  | pyFloat (q : ℚ)
  | pyBool (b : Bool)
  | pyStr (s : String)
  | pyList
  | pyDict
  | pyNone
deriving DecidableEq

/-- Value of a list of decimal digit characters, most significant first. -/
def digitsToNat (cs : List Char) : Nat :=
  cs.foldl (fun a c => a * 10 + (c.toNat - 48)) 0

/-- CPython `str.isdigit` restricted to ASCII strings: nonempty and all
characters decimal digits. -/
def strIsDigit (s : String) : Bool :=
  !s.data.isEmpty && s.data.all Char.isDigit

/-- CPython `int(s)` for a string `s`: optional sign followed by a nonempty
run of digits (whitespace/underscore forms are outside the modelled
fragment).  `none` models a raised `ValueError`. -/
def parseIntStr (s : String) : Option Int :=
  match s.data with
  | [] => none
  | '+' :: r =>
      if !r.isEmpty && r.all Char.isDigit then some (digitsToNat r) else none
  | '-' :: r =>
      if !r.isEmpty && r.all Char.isDigit then some (-(digitsToNat r : Int)) else none
  | r =>
      if r.all Char.isDigit then some (digitsToNat r) else none

/-- CPython `float(s)` for a string `s`: optional sign, then either
`digits`, `digits.digits*` or `.digits` (decimal literals; exponent and
`inf`/`nan` forms are outside the modelled fragment).  `none` models a
raised `ValueError`. -/
def parseFloatStr (s : String) : Option ℚ :=
  match s.data with
  | [] => none
  | cs =>
    let signed : Int × List Char :=
      match cs with
      | '+' :: r => (1, r)
      | '-' :: r => (-1, r)
      | r => (1, r)
    let sign := signed.1
    let rest := signed.2
    let intPart := rest.takeWhile Char.isDigit
    let rest2 := rest.dropWhile Char.isDigit
    match rest2 with
    | [] =>
        if intPart.isEmpty then none
        else some (mkRat (sign * (digitsToNat intPart : Int)) 1)
    | '.' :: r3 =>
        let fracPart := r3.takeWhile Char.isDigit
        let r4 := r3.dropWhile Char.isDigit
        if !r4.isEmpty then none
        else if intPart.isEmpty && fracPart.isEmpty then none
        else some (mkRat
          (sign * ((digitsToNat intPart : Int) * 10 ^ fracPart.length +
            (digitsToNat fracPart : Int)))
          (10 ^ fracPart.length))
    | _ => none

/-- CPython `str(v)`.  Float, list and dict renderings are abstractions (no
modelled code path depends on their exact text). -/
def pyToStr : PyVal → String
  | .pyInt n => toString n
  | .pyFloat q => toString q
  | .pyBool b => if b then "True" else "False"
  | .pyStr s => s
  | .pyList => "[...]"
  | .pyDict => "dict"
  | .pyNone => "None"

/-- CPython `repr(v)`, used only inside type-error messages.  String quoting
and container renderings are abstractions. -/
def pyRepr : PyVal → String
  | .pyInt n => toString n
  | .pyFloat q => toString q
  | .pyBool b => if b then "True" else "False"
  | .pyStr s => "\x27" ++ s ++ "\x27"
  | .pyList => "[...]"
  | .pyDict => "dict"
  | .pyNone => "None"

/-- CPython `int(v)` for a non-`str` receiver, and `parseIntStr` for `str`.
`bool` converts (bool is an int subclass); a float truncates toward zero;
other values raise (`none`). -/
def tryInt : PyVal → Option Int
  | .pyInt n => some n
  | .pyBool b => some (if b then 1 else 0)
  | .pyFloat q => some (Int.tdiv q.num (q.den : Int))
  | .pyStr s => parseIntStr s
  | _ => none

/-- CPython `float(v)`: numbers and bools convert, strings are parsed as
decimal literals, everything else raises (`none`). -/
def tryFloat : PyVal → Option ℚ
  | .pyInt n => some (n : ℚ)
  | .pyFloat q => some q
  | .pyBool b => some (if b then 1 else 0)
  | .pyStr s => parseFloatStr s
  | _ => none

/-- Python dict lookup on an association list (keys are unique in every list
that models an actual dict). -/
def alookup {α β : Type} [DecidableEq α] (k : α) : List (α × β) → Option β
  | [] => none
  | (a, b) :: rest => if a = k then some b else alookup k rest

/-- Python dict assignment `d[k] = v` on an association list: replaces the
value at an existing key in place, otherwise appends (insertion order). -/
def dictInsert {α β : Type} [DecidableEq α] (m : List (α × β)) (k : α) (v : β) :
    List (α × β) :=
  if (alookup k m).isSome then
    m.map (fun p => if p.1 = k then (k, v) else p)
  else m ++ [(k, v)]

/-! ## Request validation (`app.py`, `predict`, lines 50–72) -/

/-- `isinstance(v, (int, float))` — true for Python ints, floats and bools
(bool is a subclass of int). -/
def isNumericInstance : PyVal → Bool
  | .pyInt _ => true
  | .pyFloat _ => true
  | .pyBool _ => true
  | _ => false

/-- The per-field body of the validation loop: a numeric instance is kept
unchanged (`casted[k] = v`); otherwise `float(v)` is attempted and the
result stored; `none` models the `except` branch recording a type error. -/
def coerceField (v : PyVal) : Option PyVal :=
  if isNumericInstance v then some v
  else
    match tryFloat v with
    | some q => some (.pyFloat q)
    | none => none

/-- The type-error message recorded for field `k` with value `v`
(`app.py` line 69). -/
def typeErrorMsg (k : String) (v : PyVal) : String :=
  "Value for \x27" ++ k ++ "\x27 is not numeric and cannot be converted to float: "
    ++ pyRepr v

/-- `missing = [f for f in REQUIRED_FEATURES if f not in payload]`
(`app.py` line 51). -/
def computeMissing (features : List String) (payload : List (String × PyVal)) :
    List String :=
  features.filter (fun f => (alookup f payload).isNone)

/-- The validation loop of `app.py` lines 56–69: walks every required
feature, accumulating the `casted` dict and the `type_errors` dict, in
feature order.  (`payload.get(k)` yields `None` for an absent key.) -/
def validateTypes (features : List String) (payload : List (String × PyVal)) :
    List (String × PyVal) × List (String × String) :=
  match features with
  | [] => ([], [])
  | k :: ks =>
    let v := (alookup k payload).getD .pyNone
    let rest := validateTypes ks payload
    match coerceField v with
    | some cv => ((k, cv) :: rest.1, rest.2)
    | none => (rest.1, (k, typeErrorMsg k v) :: rest.2)

/-- Outcome of the validation phase of the `predict` handler. -/
inductive ValidationResult where
  | missingFields (fields : List String)
  | typeErrors (details : List (String × String))
  | ok (casted : List (String × PyVal))
deriving DecidableEq

/-- The validation phase of `predict` (`app.py` lines 50–72): missing-field
check first (returning without any type checking when non-empty), then the
coercion loop, failing with the accumulated `type_errors` when non-empty. -/
def validate (features : List String) (payload : List (String × PyVal)) :
    ValidationResult :=
  let missing := computeMissing features payload
  if missing.isEmpty then
    let casted_errs := validateTypes features payload
    if casted_errs.2.isEmpty then .ok casted_errs.1
    else .typeErrors casted_errs.2
  else .missingFields missing

/-! ## Label codec (`model_loader.py`, `_ensure_loaded` lines 74–95,
`decode_label` lines 133–164) -/

/-- The body of the label-mapping normalization loop of `_ensure_loaded`:
for each `(k, v)`, try `int(k)`; on success record `id_to_name[kid] = v` and
`name_to_id[str(v)] = kid`; on failure record `name_to_id[str(k)] = int(v)`
and `id_to_name[int(v)] = str(k)`, where a failing `int(v)` propagates out
of the load (`Except.error`). -/
def buildCodecAux (idToName : List (Int × PyVal)) (nameToId : List (String × Int)) :
    List (PyVal × PyVal) → Except String (List (Int × PyVal) × List (String × Int))
  | [] => .ok (idToName, nameToId)
  | (k, v) :: rest =>
    match tryInt k with
    | some kid =>
        buildCodecAux (dictInsert idToName kid v)
          (dictInsert nameToId (pyToStr v) kid) rest
    | none =>
        match tryInt v with
        | some vid =>
            buildCodecAux (dictInsert idToName vid (.pyStr (pyToStr k)))
              (dictInsert nameToId (pyToStr k) vid) rest
        | none => .error "label mapping entry is not int-convertible"

/-- Normalization of a raw `label_mapping` dict into the
`(_label_id_to_name, _label_name_to_id)` pair. -/
def buildCodec (m : List (PyVal × PyVal)) :
    Except String (List (Int × PyVal) × List (String × Int)) :=
  buildCodecAux [] [] m

/-- `isinstance(prediction, (int,))` — also true for bools (bool is a
subclass of int). -/
def isinstanceInt : PyVal → Bool
  | .pyInt _ => true
  | .pyBool _ => true
  | _ => false

/-- `int(prediction)` inside `decode_label`, applied only when the guard
`isinstance(prediction, (int,)) or (isinstance(prediction, str) and
prediction.isdigit())` holds; on ASCII strings a digit-only string always
converts, so this total function covers every guarded case. -/
def predIntValue : PyVal → Int
  | .pyInt n => n
  | .pyBool b => if b then 1 else 0
  | .pyStr s => (parseIntStr s).getD 0
  | _ => 0

/-- `decode_label` (`model_loader.py` lines 133–164), after the cache is
loaded, as a function of the cached `_label_id_to_name` dict (possibly
`None`).  `if id_to_name and pid in id_to_name` treats both a `None` and an
empty dict as falsy. -/
def decodeLabelCore (idToName : Option (List (Int × PyVal))) (prediction : PyVal) :
    PyVal :=
  if isinstanceInt prediction ||
      (match prediction with
       | .pyStr s => strIsDigit s
       | _ => false) then
    let pid := predIntValue prediction
    match idToName with
    | some m =>
        if !m.isEmpty then
          match alookup pid m with
          | some name => name
          | none => .pyStr (toString pid)
        else .pyStr (toString pid)
    | none => .pyStr (toString pid)
  else
    match prediction with
    | .pyStr s => .pyStr s
    | p => .pyStr (pyToStr p)

/-! ## Artifact loading (`model_loader.py`, lines 8–131) -/

/-- A step object as seen by `get_required_features`: `required_columns` is
`none` when the attribute is absent (`hasattr` fails). -/
structure StepObj where
  required_columns : Option (List String)
deriving DecidableEq

/-- `ColumnSelector.__init__` (`column_selector.py` lines 13–14): stores
`list(required_columns)`, so the attribute is always present. -/
def ColumnSelector.init (required_columns : List String) : StepObj :=
  { required_columns := some required_columns }

/-- A pipeline object as seen by introspection: `named_steps` is `none`
when the attribute is absent. -/
structure PipelineObj where
  named_steps : Option (List (String × StepObj))
deriving DecidableEq

/-- The raw object deserialized from the artifact file: either a dict
(with the pipeline possibly under one of three keys, plus optional
metadata entries) or a bare object taken to be the pipeline itself
(possibly `None`). -/
inductive LoadedObj where
  | asDict (pipeline model pipeline_obj : Option PipelineObj)
      (required_raw_features : Option (List String))
      (label_mapping : Option (List (PyVal × PyVal)))
      (model_metadata : Option PyVal)
  | bare (p : Option PipelineObj)
deriving DecidableEq

/-- The normalized package dict built by `_normalize_package` and completed
by `_ensure_loaded`: all six keys are always present once stored. -/
structure ArtifactPackage where
  pipeline : Option PipelineObj
  required_raw_features : Option (List String)
  label_mapping : Option (List (PyVal × PyVal))
  model_metadata : Option PyVal
  labelIdToName : Option (List (Int × PyVal))
  labelNameToId : Option (List (String × Int))
deriving DecidableEq

/-- `_normalize_package` (`model_loader.py` lines 31–57).  The `or` chain
over the three candidate keys is modelled as first-not-`None` (no modelled
pipeline object is falsy).  A missing pipeline raises `ValueError`. -/
def normalize_package : LoadedObj → Except String ArtifactPackage
  | .asDict p m po rrf lm md =>
    let pipe := (p.orElse fun _ => m).orElse fun _ => po
    if pipe.isSome then
      .ok ⟨pipe, rrf, lm, md, none, none⟩
    else .error "Loaded model missing pipeline."
  | .bare p =>
    if p.isSome then
      .ok ⟨p, none, none, none, none, none⟩
    else .error "Loaded model missing pipeline."

/-- The label-mapping post-processing step of `_ensure_loaded` (lines
74–95): builds both codec dicts when a raw mapping is present, stores
`None` in both slots otherwise. -/
def postprocessLabels (pkg : ArtifactPackage) : Except String ArtifactPackage :=
  match pkg.label_mapping with
  | some lm => do
    let codec ← buildCodec lm
    .ok { pkg with labelIdToName := some codec.1, labelNameToId := some codec.2 }
  | none => .ok { pkg with labelIdToName := none, labelNameToId := none }

/-- The process-wide `_model_cache` dict. -/
structure ModelCache where
  loaded : Bool
  package : Option ArtifactPackage
deriving DecidableEq

/-- The cache before any load. -/
def initialCache : ModelCache := { loaded := false, package := none }

/-- `_ensure_loaded` (`model_loader.py` lines 60–98) with the file read
modelled as an `Except` value (`.error` covers both `FileNotFoundError`
and a failing `joblib.load`).  Returns the updated cache and whether a
deserialization was performed; an `.error` leaves the cache unchanged.
Sequential semantics: the two `loaded` checks collapse into one
(the concurrent interleaving model below treats them separately). -/
def ensure_loaded (file : Except String LoadedObj) (c : ModelCache) :
    Except String (ModelCache × Bool) :=
  if c.loaded then .ok (c, false)
  else do
    let obj ← file
    let pkg ← normalize_package obj
    let pkg2 ← postprocessLabels pkg
    .ok ({ loaded := true, package := some pkg2 }, true)

/-- `get_pipeline` (`model_loader.py` lines 101–107): ensures the cache is
loaded, then returns the cached package together with the cache state and
the load indicator. -/
def get_pipeline (file : Except String LoadedObj) (c : ModelCache) :
    Except String (Option ArtifactPackage × ModelCache × Bool) := do
  let cd ← ensure_loaded file c
  .ok (cd.1.package, cd.1, cd.2)

/-- The pipeline introspection of `get_required_features` (lines 118–125):
`hasattr(pipeline, "named_steps")`, `"selector" in named_steps`,
`hasattr(sel, "required_columns")`, then `list(sel.required_columns)`;
any miss leaves `features = None`. -/
def introspectSelector (p : Option PipelineObj) : Option (List String) :=
  match p with
  | none => none
  | some pl =>
    match pl.named_steps with
    | none => none
    | some steps =>
      match alookup "selector" steps with
      | none => none
      | some sel => sel.required_columns

/-- The schema-resolution core of `get_required_features` (lines 110–130)
as a function of the loaded package: the declared feature list is used
whenever it is not `None` (an empty list included); otherwise the embedded
column selector is introspected; otherwise the empty list. -/
def get_required_features_pkg (pkg : ArtifactPackage) : List String :=
  match pkg.required_raw_features with
  | some fs => fs
  | none =>
    match introspectSelector pkg.pipeline with
    | some cols => cols
    | none => []

/-- `get_required_features` (`model_loader.py` lines 110–130). -/
def get_required_features (file : Except String LoadedObj) (c : ModelCache) :
    Except String (List String × ModelCache × Bool) := do
  let cd ← ensure_loaded file c
  match cd.1.package with
  | some pkg => .ok (get_required_features_pkg pkg, cd.1, cd.2)
  | none => .error "package is None"

/-- `decode_label` (`model_loader.py` lines 133–164) including its
`_ensure_loaded` call. -/
def decode_label (file : Except String LoadedObj) (c : ModelCache)
    (prediction : PyVal) : Except String (PyVal × ModelCache × Bool) := do
  let cd ← ensure_loaded file c
  match cd.1.package with
  | some pkg => .ok (decodeLabelCore pkg.labelIdToName prediction, cd.1, cd.2)
  | none => .error "package is None"

/-- The startup block of `app.py` (lines 17–25): `PIPELINE_PACKAGE` is the
loaded package, or `None` when any part of the load raised. -/
def startupPackage (file : Except String LoadedObj) : Option ArtifactPackage :=
  match ensure_loaded file initialCache with
  | .ok cd => cd.1.package
  | .error _ => none

/-! ## The predict handler (`app.py`, lines 33–108) -/

/-- Python `round(x, 4)` modelled on rationals: round half to even at the
fourth decimal place, computed on the integer numerator/denominator so the
kernel can evaluate it (the decimal-vs-binary-float difference is the one
abstraction taken here). -/
def round4 (q : ℚ) : ℚ :=
  let scaled : Int := q.num * 10000
  let den : Int := (q.den : Int)
  let f : Int := scaled / den
  let rem : Int := scaled % den
  let r : Int := if 2 * rem < den then f
    else if den < 2 * rem then f + 1
    else if f % 2 = 0 then f else f + 1
  mkRat r 10000

/-- `probs[0].max()`: the maximum of the first probability row; `none`
models the exception raised on an empty row. -/
def maxHead : List ℚ → Option ℚ
  | [] => none
  | q :: qs => some (qs.foldl max q)

/-- The HTTP outcomes of `POST /predict` relevant to the modelled fragment
(the body is taken as an already-parsed JSON object; the non-JSON and
non-object rejections happen before the modelled code). -/
inductive PredictResponse where
  | modelNotLoaded
  | missingFields (fields : List String)
  | typeErrors (details : List (String × String))
  | success (prediction : PyVal) (confidence : ℚ)
  | internalError (msg : String)
deriving DecidableEq

/-- The `predict` handler (`app.py` lines 33–108) from the missing-field
check onward, with the pipeline's `predict`/`predict_proba` pair modelled
as one opaque function `run` from the casted dict to the prediction row
and probability matrix (`Except.error` models a raised exception, mapped
to the 500 response). -/
def predictHandler (pkg : Option ArtifactPackage) (features : List String)
    (payload : List (String × PyVal))
    (run : List (String × PyVal) → Except String (List PyVal × List (List ℚ))) :
    PredictResponse :=
  match pkg with
  | none => .modelNotLoaded
  | some package =>
    match validate features payload with
    | .missingFields m => .missingFields m
    | .typeErrors d => .typeErrors d
    | .ok casted =>
      match run casted with
      | .error e => .internalError e
      | .ok preds_probs =>
        match preds_probs.1, preds_probs.2 with
        | p0 :: _, pr0 :: _ =>
          match maxHead pr0 with
          | some mx =>
              .success (decodeLabelCore package.labelIdToName p0) (round4 mx)
          | none => .internalError "max of empty sequence"
        | _, _ => .internalError "index out of range"

/-! ## Characterizations of the validator -/

/-- The required features whose supplied value fails coercion. -/
def failingFields (features : List String) (payload : List (String × PyVal)) :
    List String :=
  features.filter (fun k => (coerceField ((alookup k payload).getD .pyNone)).isNone)

/-- The `type_errors` dict accumulated by the validation loop. -/
def typeErrorDetails (features : List String) (payload : List (String × PyVal)) :
    List (String × String) :=
  (failingFields features payload).map
    (fun k => (k, typeErrorMsg k ((alookup k payload).getD .pyNone)))

theorem validateTypes_spec (features : List String) (payload : List (String × PyVal)) :
    validateTypes features payload =
      (features.filterMap (fun k =>
        (coerceField ((alookup k payload).getD .pyNone)).map (fun cv => (k, cv))),
       typeErrorDetails features payload) := by
  induction features with
  | nil => rfl
  | cons k ks ih =>
    simp only [validateTypes, ih, typeErrorDetails, failingFields]
    cases h : coerceField ((alookup k payload).getD .pyNone) <;>
      simp [List.filterMap_cons, List.filter_cons, h]

theorem validate_missing (features : List String) (payload : List (String × PyVal))
    (h : computeMissing features payload ≠ []) :
    validate features payload = .missingFields (computeMissing features payload) := by
  simp only [validate]
  rw [if_neg]
  simp [List.isEmpty_iff, h]

theorem validate_typeErrors (features : List String) (payload : List (String × PyVal))
    (hm : computeMissing features payload = [])
    (hf : failingFields features payload ≠ []) :
    validate features payload = .typeErrors (typeErrorDetails features payload) := by
  simp only [validate, hm, List.isEmpty_nil, if_true, validateTypes_spec]
  rw [if_neg]
  simp [typeErrorDetails, List.isEmpty_iff, hf]

theorem validate_ok (features : List String) (payload : List (String × PyVal))
    (hm : computeMissing features payload = [])
    (hf : failingFields features payload = []) :
    validate features payload =
      .ok (features.filterMap (fun k =>
        (coerceField ((alookup k payload).getD .pyNone)).map (fun cv => (k, cv)))) := by
  simp [validate, hm, validateTypes_spec, typeErrorDetails, hf]

/-- The numeric-string example of the spec, evaluated once. -/
theorem parseFloatStr_three_point_five : parseFloatStr "3.5" = some (mkRat 7 2) := by
  decide

/-- A concrete loaded package with no metadata, used by witnesses. -/
def samplePackage : ArtifactPackage :=
  { pipeline := some { named_steps := none }, required_raw_features := none,
    label_mapping := none, model_metadata := none,
    labelIdToName := none, labelNameToId := none }

/-- A pipeline stub that always raises, used by witnesses of claims whose
conclusion is reached before the pipeline runs. -/
def stubRun : List (String × PyVal) → Except String (List PyVal × List (List ℚ)) :=
  fun _ => .error "stub"

/-- C1 (counterexample): the claim says a boolean value is reported as a
type error; in the code `isinstance(v, (int, float))` is true for a Python
bool, so a boolean passes validation unchanged and no TypeErrors response
occurs. -/
theorem C1_counterexample :
    validate ["a"] [("a", PyVal.pyBool true)] =
      ValidationResult.ok [("a", PyVal.pyBool true)] ∧
    validate ["a"] [("a", PyVal.pyBool true)] ≠
      ValidationResult.typeErrors [("a", typeErrorMsg "a" (PyVal.pyBool true))] := by
  exact ⟨by decide, by decide⟩

/-- C1 (amended): for a request supplying a schema field, a value of
numeric type — ints, floats, and booleans, the latter because Python bool
is a subclass of int — passes through unchanged; any other value goes
through a best-effort numeric parse, so the numeric string "3.5" coerces
to 3.5, while objects, arrays and null fail the parse and are each
reported as a type error (a 400 TypeErrors response naming that field). -/
theorem C1_coercion (k : String) (n : Int) (x : ℚ) (b : Bool) :
    validate [k] [(k, PyVal.pyInt n)] = ValidationResult.ok [(k, PyVal.pyInt n)] ∧
    validate [k] [(k, PyVal.pyFloat x)] = ValidationResult.ok [(k, PyVal.pyFloat x)] ∧
    validate [k] [(k, PyVal.pyBool b)] = ValidationResult.ok [(k, PyVal.pyBool b)] ∧
    validate [k] [(k, PyVal.pyStr "3.5")] =
      ValidationResult.ok [(k, PyVal.pyFloat (mkRat 7 2))] ∧
    validate [k] [(k, PyVal.pyList)] =
      ValidationResult.typeErrors [(k, typeErrorMsg k PyVal.pyList)] ∧
    validate [k] [(k, PyVal.pyDict)] =
      ValidationResult.typeErrors [(k, typeErrorMsg k PyVal.pyDict)] ∧
    validate [k] [(k, PyVal.pyNone)] =
      ValidationResult.typeErrors [(k, typeErrorMsg k PyVal.pyNone)] := by
  refine ⟨?_, ?_, ?_, ?_, ?_, ?_, ?_⟩ <;>
    simp [validate, computeMissing, alookup, validateTypes, coerceField,
      isNumericInstance, tryFloat, parseFloatStr_three_point_five]

/-- C3: for every request-body object missing at least one schema field
(extra unrelated fields allowed), the handler answers with exactly the
missing fields — the set-difference of the schema and the request keys —
and never with a TypeErrors response. -/
theorem C3_missing_fields (pkg : ArtifactPackage) (features : List String)
    (payload : List (String × PyVal))
    (run : List (String × PyVal) → Except String (List PyVal × List (List ℚ)))
    (h : computeMissing features payload ≠ []) :
    predictHandler (some pkg) features payload run =
      PredictResponse.missingFields (computeMissing features payload) ∧
    (∀ f, f ∈ computeMissing features payload ↔
      f ∈ features ∧ alookup f payload = none) ∧
    ∀ d, predictHandler (some pkg) features payload run ≠
      PredictResponse.typeErrors d := by
  have hv := validate_missing features payload h
  refine ⟨by simp [predictHandler, hv], ?_, ?_⟩
  · intro f
    simp [computeMissing, List.mem_filter, Option.isNone_iff_eq_none]
  · intro d
    simp [predictHandler, hv]

/-- Witness for C3: schema `["a","b"]`, request `{"b": 1, "c": "x"}` —
missing exactly `["a"]` despite the extra field `"c"`. -/
theorem C3_missing_fields_witness :
    predictHandler (some samplePackage) ["a", "b"]
      [("b", PyVal.pyInt 1), ("c", PyVal.pyStr "x")] stubRun =
      PredictResponse.missingFields ["a"] := by
  have h := (C3_missing_fields samplePackage ["a", "b"]
    [("b", PyVal.pyInt 1), ("c", PyVal.pyStr "x")] stubRun (by decide)).1
  rw [show computeMissing ["a", "b"] [("b", PyVal.pyInt 1), ("c", PyVal.pyStr "x")]
    = ["a"] by decide] at h
  exact h

/-- C4: for every request supplying all schema fields in which at least one
field (in particular: two or more) fails coercion, the handler answers 400
TypeErrors whose details contain an entry for every failing field — the
loop checks all schema fields before failing. -/
theorem C4_all_type_errors (pkg : ArtifactPackage) (features : List String)
    (payload : List (String × PyVal))
    (run : List (String × PyVal) → Except String (List PyVal × List (List ℚ)))
    (hm : computeMissing features payload = [])
    (hf : failingFields features payload ≠ []) :
    predictHandler (some pkg) features payload run =
      PredictResponse.typeErrors (typeErrorDetails features payload) ∧
    (typeErrorDetails features payload).map Prod.fst =
      failingFields features payload ∧
    ∀ k, k ∈ failingFields features payload ↔
      k ∈ features ∧ coerceField ((alookup k payload).getD .pyNone) = none := by
  have hv := validate_typeErrors features payload hm hf
  refine ⟨by simp [predictHandler, hv], ?_, ?_⟩
  · simp only [typeErrorDetails, List.map_map]
    have hid : (Prod.fst ∘ fun k =>
        (k, typeErrorMsg k ((alookup k payload).getD PyVal.pyNone))) = id := by
      funext k
      rfl
    rw [hid, List.map_id]
  · intro k
    simp [failingFields, List.mem_filter, Option.isNone_iff_eq_none]

/-- Witness for C4: both fields of `{"a": [], "b": {}}` fail coercion and
both are reported together. -/
theorem C4_all_type_errors_witness :
    predictHandler (some samplePackage) ["a", "b"]
      [("a", PyVal.pyList), ("b", PyVal.pyDict)] stubRun =
      PredictResponse.typeErrors
        [("a", typeErrorMsg "a" PyVal.pyList), ("b", typeErrorMsg "b" PyVal.pyDict)] := by
  have h := (C4_all_type_errors samplePackage ["a", "b"]
    [("a", PyVal.pyList), ("b", PyVal.pyDict)] stubRun (by decide) (by decide)).1
  rw [show typeErrorDetails ["a", "b"] [("a", PyVal.pyList), ("b", PyVal.pyDict)]
    = [("a", typeErrorMsg "a" PyVal.pyList), ("b", typeErrorMsg "b" PyVal.pyDict)]
    by decide] at h
  exact h

/-! ## Label-codec claims -/

theorem buildCodecAux_orientations (m : List (Int × String))
    (h : ∀ p ∈ m, parseIntStr p.2 = none)
    (i2n : List (Int × PyVal)) (n2i : List (String × Int)) :
    buildCodecAux i2n n2i (m.map fun p => (PyVal.pyInt p.1, PyVal.pyStr p.2)) =
    buildCodecAux i2n n2i (m.map fun p => (PyVal.pyStr p.2, PyVal.pyInt p.1)) := by
  induction m generalizing i2n n2i with
  | nil => rfl
  | cons p ps ih =>
    obtain ⟨i, nm⟩ := p
    have hp : parseIntStr nm = none := h (i, nm) (List.mem_cons_self _ _)
    have hs : ∀ q ∈ ps, parseIntStr q.2 = none :=
      fun q hq => h q (List.mem_cons_of_mem _ hq)
    simp only [List.map_cons, buildCodecAux, tryInt, hp, pyToStr]
    exact ih hs _ _

theorem buildCodecAux_idKeyed_ok (m : List (Int × String))
    (i2n : List (Int × PyVal)) (n2i : List (String × Int)) :
    ∃ c, buildCodecAux i2n n2i
      (m.map fun p => (PyVal.pyInt p.1, PyVal.pyStr p.2)) = .ok c := by
  induction m generalizing i2n n2i with
  | nil => exact ⟨(i2n, n2i), rfl⟩
  | cons p ps ih =>
    simp only [List.map_cons, buildCodecAux, tryInt]
    exact ih _ _

/-- C2 (counterexample): the id-keyed mapping `{0: "1"}` and its
semantically equivalent name-keyed form `{"1": 0}` decode class id 0
differently: the digit-string name "1" is itself int-convertible, so the
name-keyed orientation is mis-detected as id-keyed and decoding 0 falls
back to the stringified id "0" instead of the name "1". -/
theorem C2_counterexample :
    buildCodec [(PyVal.pyInt 0, PyVal.pyStr "1")] =
      .ok ([(0, PyVal.pyStr "1")], [("1", 0)]) ∧
    buildCodec [(PyVal.pyStr "1", PyVal.pyInt 0)] =
      .ok ([(1, PyVal.pyInt 0)], [("0", 1)]) ∧
    decodeLabelCore (some [((0 : Int), PyVal.pyStr "1")]) (PyVal.pyInt 0) =
      PyVal.pyStr "1" ∧
    decodeLabelCore (some [((1 : Int), PyVal.pyInt 0)]) (PyVal.pyInt 0) =
      PyVal.pyStr "0" ∧
    (PyVal.pyStr "1" : PyVal) ≠ PyVal.pyStr "0" :=
  ⟨by decide, by decide, by decide, by decide, by decide⟩

/-- C2 (amended): for every id-to-name mapping whose display names are
strings that are not int-convertible, building the codec from the
id-keyed orientation and from the equivalent name-keyed orientation
succeeds and yields identical codecs, hence identical decode behaviour on
every prediction (in particular every class id). -/
theorem C2_codec_orientations (m : List (Int × String))
    (h : ∀ p ∈ m, parseIntStr p.2 = none) :
    (∃ c, buildCodec (m.map fun p => (PyVal.pyInt p.1, PyVal.pyStr p.2)) = .ok c) ∧
    buildCodec (m.map fun p => (PyVal.pyInt p.1, PyVal.pyStr p.2)) =
      buildCodec (m.map fun p => (PyVal.pyStr p.2, PyVal.pyInt p.1)) ∧
    ∀ cA cB,
      buildCodec (m.map fun p => (PyVal.pyInt p.1, PyVal.pyStr p.2)) = .ok cA →
      buildCodec (m.map fun p => (PyVal.pyStr p.2, PyVal.pyInt p.1)) = .ok cB →
      ∀ pred, decodeLabelCore (some cA.1) pred = decodeLabelCore (some cB.1) pred := by
  have he := buildCodecAux_orientations m h [] []
  refine ⟨buildCodecAux_idKeyed_ok m [] [], he, ?_⟩
  intro cA cB hA hB pred
  rw [buildCodec] at hA hB
  rw [he, hB] at hA
  injection hA with hA2
  rw [hA2]

/-- Witness for C2: the spec's own example pair of orientations. -/
theorem C2_codec_orientations_witness :
    parseIntStr "BENIGN" = none ∧ parseIntStr "DDoS" = none ∧
    buildCodec [(PyVal.pyInt 0, PyVal.pyStr "BENIGN"),
        (PyVal.pyInt 1, PyVal.pyStr "DDoS")] =
      buildCodec [(PyVal.pyStr "BENIGN", PyVal.pyInt 0),
        (PyVal.pyStr "DDoS", PyVal.pyInt 1)] :=
  ⟨by decide, by decide,
    (C2_codec_orientations [((0 : Int), "BENIGN"), (1, "DDoS")] (by decide)).2.1⟩

/-- The id-lookup branch of `decode_label`: the mapped name when the codec
dict exists, is non-empty and contains the id; the stringified id in every
other case. -/
def idPathResult (idToName : Option (List (Int × PyVal))) (pid : Int) : PyVal :=
  match idToName with
  | some m =>
      if !m.isEmpty then
        match alookup pid m with
        | some name => name
        | none => .pyStr (toString pid)
      else .pyStr (toString pid)
  | none => .pyStr (toString pid)

/-- C5 (counterexample): the claim's case analysis says a value that is
neither an integer nor a string (such as a boolean) is returned as its
default string conversion; in the code `isinstance(prediction, (int,))`
is true for a bool, so `True` is decoded through the id path and, with
codec `{1: "DDoS"}`, yields "DDoS" instead of `str(True) = "True"`. -/
theorem C5_counterexample :
    decodeLabelCore (some [((1 : Int), PyVal.pyStr "DDoS")]) (PyVal.pyBool true) =
      PyVal.pyStr "DDoS" ∧
    decodeLabelCore (some [((1 : Int), PyVal.pyStr "DDoS")]) (PyVal.pyBool true) ≠
      PyVal.pyStr (pyToStr (PyVal.pyBool true)) :=
  ⟨by decide, by decide⟩

/-- C5 (amended): `decode_label` is total and satisfies this case
analysis: an integer — or a boolean, which Python treats as an integer —
or a digit-only string is parsed as an id and looked up in `idToName`,
returning the mapped name when the codec exists, is non-empty and
contains the id, and the stringified id otherwise (including when no
codec was ever built); a string not composed only of digits is returned
unchanged even when a codec exists; any other value is returned as its
default string conversion. -/
theorem C5_decode_cases (m : Option (List (Int × PyVal))) :
    (∀ n : Int, decodeLabelCore m (.pyInt n) = idPathResult m n) ∧
    (∀ b : Bool, decodeLabelCore m (.pyBool b) =
      idPathResult m (if b then 1 else 0)) ∧
    (∀ s : String, strIsDigit s = true →
      decodeLabelCore m (.pyStr s) = idPathResult m ((parseIntStr s).getD 0)) ∧
    (∀ s : String, strIsDigit s = false →
      decodeLabelCore m (.pyStr s) = .pyStr s) ∧
    (∀ q : ℚ, decodeLabelCore m (.pyFloat q) = .pyStr (pyToStr (.pyFloat q))) ∧
    (decodeLabelCore m .pyList = .pyStr (pyToStr .pyList)) ∧
    (decodeLabelCore m .pyDict = .pyStr (pyToStr .pyDict)) ∧
    (decodeLabelCore m .pyNone = .pyStr (pyToStr .pyNone)) ∧
    (m = none → ∀ n : Int, idPathResult m n = .pyStr (toString n)) ∧
    (∀ (n : Int) (mm : List (Int × PyVal)), m = some mm → alookup n mm = none →
      idPathResult m n = .pyStr (toString n)) ∧
    (∀ (n : Int) (mm : List (Int × PyVal)) (nm : PyVal), m = some mm →
      alookup n mm = some nm → idPathResult m n = nm) := by
  refine ⟨?_, ?_, ?_, ?_, ?_, ?_, ?_, ?_, ?_, ?_, ?_⟩
  · intro n
    simp [decodeLabelCore, isinstanceInt, predIntValue, idPathResult]
  · intro b
    simp [decodeLabelCore, isinstanceInt, predIntValue, idPathResult]
  · intro s hs
    simp [decodeLabelCore, isinstanceInt, hs, predIntValue, idPathResult]
  · intro s hs
    simp [decodeLabelCore, isinstanceInt, hs]
  · intro q
    simp [decodeLabelCore, isinstanceInt]
  · simp [decodeLabelCore, isinstanceInt]
  · simp [decodeLabelCore, isinstanceInt]
  · simp [decodeLabelCore, isinstanceInt]
  · intro hm n
    subst hm
    rfl
  · intro n mm hm hl
    subst hm
    cases mm with
    | nil => rfl
    | cons p ps => simp [idPathResult, hl]
  · intro n mm nm hm hl
    subst hm
    cases mm with
    | nil => simp [alookup] at hl
    | cons p ps => simp [idPathResult, hl]

/-- Witness for C5: a non-digit string survives decoding unchanged, an
integer with no codec decodes to its own string form, and a digit string
is decoded through the codec. -/
theorem C5_decode_cases_witness :
    decodeLabelCore (some [((1 : Int), PyVal.pyStr "DDoS")]) (PyVal.pyStr "DDoS") =
      PyVal.pyStr "DDoS" ∧
    decodeLabelCore none (PyVal.pyInt 7) = PyVal.pyStr "7" ∧
    decodeLabelCore (some [((1 : Int), PyVal.pyStr "DDoS")]) (PyVal.pyStr "1") =
      PyVal.pyStr "DDoS" := by
  obtain ⟨h1, h2, h3, h4, _⟩ :=
    C5_decode_cases (some [((1 : Int), PyVal.pyStr "DDoS")])
  obtain ⟨g1, _, _, _, _, _, _, _, g9, _⟩ := C5_decode_cases none
  refine ⟨h4 "DDoS" (by decide), ?_, ?_⟩
  · rw [g1 7, g9 rfl 7]
    decide
  · rw [h3 "1" (by decide)]
    decide

/-! ## Schema resolution and the success path -/

/-- A concrete package whose schema comes from an embedded column selector. -/
def selectorPackage : ArtifactPackage :=
  { pipeline := some { named_steps := some [("selector", ColumnSelector.init ["x", "y"])] },
    required_raw_features := none, label_mapping := none, model_metadata := none,
    labelIdToName := none, labelNameToId := none }

/-- C6: `get_required_features` resolves the schema with this precedence:
(a) the declared feature list whenever it is not `None` — an explicitly
empty declared list is returned as-is; (b) otherwise the configured column
list of an embedded column-selection step introspected from the pipeline;
(c) otherwise the empty sequence.  On a loaded cache the resolution reads
the cached package without reloading. -/
theorem C6_required_features (pkg : ArtifactPackage) :
    (∀ fs, pkg.required_raw_features = some fs →
      get_required_features_pkg pkg = fs) ∧
    (pkg.required_raw_features = some [] → get_required_features_pkg pkg = []) ∧
    (pkg.required_raw_features = none →
      ∀ cols, introspectSelector pkg.pipeline = some cols →
        get_required_features_pkg pkg = cols) ∧
    (pkg.required_raw_features = none → introspectSelector pkg.pipeline = none →
      get_required_features_pkg pkg = []) ∧
    (∀ cols steps, pkg.pipeline = some { named_steps := some steps } →
      alookup "selector" steps = some (ColumnSelector.init cols) →
      introspectSelector pkg.pipeline = some cols) ∧
    ∀ (file : Except String LoadedObj) (c : ModelCache),
      c.loaded = true → c.package = some pkg →
      get_required_features file c = .ok (get_required_features_pkg pkg, c, false) := by
  refine ⟨?_, ?_, ?_, ?_, ?_, ?_⟩
  · intro fs h
    simp [get_required_features_pkg, h]
  · intro h
    simp [get_required_features_pkg, h]
  · intro h cols hc
    simp [get_required_features_pkg, h, hc]
  · intro h hc
    simp [get_required_features_pkg, h, hc]
  · intro cols steps hp hs
    simp [introspectSelector, hp, hs, ColumnSelector.init]
  · intro file c hl hp
    show (do
      let cd ← ensure_loaded file c
      match cd.1.package with
      | some pkg => Except.ok (get_required_features_pkg pkg, cd.1, cd.2)
      | none => Except.error "package is None") = _
    rw [show ensure_loaded file c = .ok (c, false) by rw [ensure_loaded, hl]; rfl]
    show (match c.package with
      | some pkg => Except.ok (get_required_features_pkg pkg, c, false)
      | none => Except.error "package is None") = _
    rw [hp]

/-- Witness for C6: the selector columns are used when no list is declared,
and a declared empty list is honored rather than falling through. -/
theorem C6_required_features_witness :
    get_required_features_pkg selectorPackage = ["x", "y"] ∧
    get_required_features_pkg
      { selectorPackage with required_raw_features := some [] } = [] := by
  refine ⟨?_, ?_⟩
  · exact (C6_required_features selectorPackage).2.2.1 rfl ["x", "y"] (by decide)
  · exact (C6_required_features _).2.1 rfl

theorem le_foldl_max {α : Type} [LinearOrder α] :
    ∀ (qs : List α) (q : α), q ≤ qs.foldl max q ∧ ∀ x ∈ qs, x ≤ qs.foldl max q := by
  intro qs
  induction qs with
  | nil =>
    intro q
    exact ⟨le_refl q, by simp⟩
  | cons a as ih =>
    intro q
    obtain ⟨h1, h2⟩ := ih (max q a)
    simp only [List.foldl_cons]
    refine ⟨le_trans (le_max_left q a) h1, ?_⟩
    intro x hx
    rcases List.mem_cons.mp hx with h | h
    · rw [h]
      exact le_trans (le_max_right q a) h1
    · exact h2 x h

theorem foldl_max_mem {α : Type} [LinearOrder α] :
    ∀ (qs : List α) (q : α), qs.foldl max q = q ∨ qs.foldl max q ∈ qs := by
  intro qs
  induction qs with
  | nil =>
    intro q
    exact Or.inl rfl
  | cons a as ih =>
    intro q
    simp only [List.foldl_cons]
    rcases ih (max q a) with h | h
    · rcases max_choice q a with hm | hm
      · exact Or.inl (h.trans hm)
      · exact Or.inr (List.mem_cons.mpr (Or.inl (h.trans hm)))
    · exact Or.inr (List.mem_cons_of_mem _ h)

/-- C7: for every request that passes validation and for which the
pipeline call succeeds with a non-empty prediction row and probability
row, the 200 response carries the decoded first element of the `predict`
result and, as confidence, the maximum of the first `predict_proba` row
rounded to 4 decimal places. -/
theorem C7_success_response (pkg : ArtifactPackage) (features : List String)
    (payload : List (String × PyVal))
    (run : List (String × PyVal) → Except String (List PyVal × List (List ℚ)))
    (p0 : PyVal) (ps : List PyVal) (pr0 : List ℚ) (prs : List (List ℚ)) (mx : ℚ)
    (hm : computeMissing features payload = [])
    (hf : failingFields features payload = [])
    (hrun : run (features.filterMap (fun k =>
        (coerceField ((alookup k payload).getD .pyNone)).map (fun cv => (k, cv)))) =
      .ok (p0 :: ps, pr0 :: prs))
    (hmx : maxHead pr0 = some mx) :
    predictHandler (some pkg) features payload run =
      PredictResponse.success (decodeLabelCore pkg.labelIdToName p0) (round4 mx) ∧
    mx ∈ pr0 ∧ ∀ q ∈ pr0, q ≤ mx := by
  have hv := validate_ok features payload hm hf
  cases pr0 with
  | nil => simp [maxHead] at hmx
  | cons q qs =>
    simp only [maxHead, Option.some.injEq] at hmx
    refine ⟨?_, ?_, ?_⟩
    · simp [predictHandler, hv, hrun, maxHead, hmx]
    · rcases foldl_max_mem qs q with h | h
      · rw [← hmx, h]
        exact List.mem_cons_self _ _
      · rw [← hmx]
        exact List.mem_cons_of_mem _ h
    · intro x hx
      rw [← hmx]
      rcases List.mem_cons.mp hx with h | h
      · exact h ▸ (le_foldl_max qs q).1
      · exact (le_foldl_max qs q).2 x h

/-- The package of the spec's end-to-end example: codec `{1: "DDoS"}`,
schema `["a","b"]`. -/
def ddosPackage : ArtifactPackage :=
  { pipeline := some { named_steps := none }, required_raw_features := some ["a", "b"],
    label_mapping := some [(PyVal.pyInt 1, PyVal.pyStr "DDoS")], model_metadata := none,
    labelIdToName := some [(1, PyVal.pyStr "DDoS")], labelNameToId := some [("DDoS", 1)] }

/-- The stub pipeline of the spec's end-to-end example: always predicts
class 1 with probabilities [0.1, 0.9]. -/
def ddosRun : List (String × PyVal) → Except String (List PyVal × List (List ℚ)) :=
  fun _ => .ok ([PyVal.pyInt 1], [[mkRat 1 10, mkRat 9 10]])

/-- Witness for C7: the spec's end-to-end example — request
`{"a": 1, "b": "2.5"}` yields `{"prediction": "DDoS", "confidence": 0.9}`. -/
theorem C7_success_response_witness :
    predictHandler (some ddosPackage) ["a", "b"]
      [("a", PyVal.pyInt 1), ("b", PyVal.pyStr "2.5")] ddosRun =
      PredictResponse.success (PyVal.pyStr "DDoS") (mkRat 9 10) := by
  have h := (C7_success_response ddosPackage ["a", "b"]
    [("a", PyVal.pyInt 1), ("b", PyVal.pyStr "2.5")] ddosRun
    (PyVal.pyInt 1) [] [mkRat 1 10, mkRat 9 10] [] (mkRat 9 10)
    (by decide) (by decide) (by decide) (by decide)).1
  rw [show decodeLabelCore ddosPackage.labelIdToName (PyVal.pyInt 1) =
      PyVal.pyStr "DDoS" by decide,
    show round4 (mkRat 9 10) = mkRat 9 10 by decide] at h
  exact h

/-! ## Load-failure and loaded-cache claims -/

theorem except_bind_ok {ε α β : Type} (a : α) (f : α → Except ε β) :
    (Except.ok a >>= f) = f a := rfl

theorem except_bind_error {ε α β : Type} (e : ε) (f : α → Except ε β) :
    ((Except.error e : Except ε α) >>= f) = .error e := rfl

theorem buildCodecAux_error_of_bad (lm : List (PyVal × PyVal)) (k v : PyVal)
    (hk : tryInt k = none) (hv : tryInt v = none) (hmem : (k, v) ∈ lm) :
    ∀ (i2n : List (Int × PyVal)) (n2i : List (String × Int)),
      ∃ msg, buildCodecAux i2n n2i lm = .error msg := by
  induction lm with
  | nil => simp at hmem
  | cons p ps ih =>
    intro i2n n2i
    obtain ⟨a, b⟩ := p
    rcases List.mem_cons.mp hmem with he | hm
    · obtain ⟨h1, h2⟩ := Prod.mk.injEq .. ▸ he
      rw [← h1, ← h2]
      simp only [buildCodecAux, hk, hv]
      exact ⟨_, rfl⟩
    · have ih2 := fun i2n n2i => ih hm i2n n2i
      cases hta : tryInt a with
      | some kid =>
        simp only [buildCodecAux, hta]
        exact ih2 _ _
      | none =>
        cases htb : tryInt b with
        | some vid =>
          simp only [buildCodecAux, hta, htb]
          exact ih2 _ _
        | none =>
          simp only [buildCodecAux, hta, htb]
          exact ⟨_, rfl⟩

/-- C9: an artifact whose label mapping has an entry in which neither the
key nor the value is int-convertible makes codec construction raise inside
the load; the load as a whole fails, startup stores no package, and every
request to the predict handler answers 500 Model-not-loaded — even though
the artifact holds a valid pipeline. -/
theorem C9_bad_label_mapping (pl : PipelineObj) (rrf : Option (List String))
    (lm : List (PyVal × PyVal)) (md : Option PyVal) (k v : PyVal)
    (hmem : (k, v) ∈ lm) (hk : tryInt k = none) (hv : tryInt v = none) :
    (∃ msg, buildCodec lm = .error msg) ∧
    startupPackage (.ok (.asDict (some pl) none none rrf (some lm) md)) = none ∧
    ∀ features payload run,
      predictHandler
        (startupPackage (.ok (.asDict (some pl) none none rrf (some lm) md)))
        features payload run = .modelNotLoaded := by
  obtain ⟨msg, hmsg⟩ := buildCodecAux_error_of_bad lm k v hk hv hmem [] []
  have hbc : buildCodec lm = .error msg := hmsg
  have hsp : startupPackage (.ok (.asDict (some pl) none none rrf (some lm) md)) =
      none := by
    rw [startupPackage, ensure_loaded]
    simp only [initialCache, except_bind_ok]
    rw [if_neg (by simp)]
    simp only [except_bind_ok, normalize_package]
    rw [if_pos (by simp)]
    simp only [except_bind_ok, postprocessLabels, hbc, except_bind_error]
  refine ⟨⟨msg, hbc⟩, hsp, ?_⟩
  intro features payload run
  rw [hsp]
  rfl

/-- Witness for C9: label mapping `{None: "x"}` — `int(None)` and
`int("x")` both raise — leaves the server in the model-not-loaded state. -/
theorem C9_bad_label_mapping_witness :
    startupPackage (.ok (.asDict (some { named_steps := none }) none none none
      (some [(PyVal.pyNone, PyVal.pyStr "x")]) none)) = none ∧
    predictHandler (startupPackage (.ok (.asDict (some { named_steps := none })
      none none none (some [(PyVal.pyNone, PyVal.pyStr "x")]) none)))
      ["a"] [] stubRun = .modelNotLoaded := by
  have h := C9_bad_label_mapping { named_steps := none } none
    [(PyVal.pyNone, PyVal.pyStr "x")] none PyVal.pyNone (PyVal.pyStr "x")
    (List.mem_cons_self _ _) (by decide) (by decide)
  exact ⟨h.2.1, h.2.2 ["a"] [] stubRun⟩

theorem ensure_loaded_initial_ok (file : Except String LoadedObj) (c : ModelCache)
    (did : Bool) (h : ensure_loaded file initialCache = .ok (c, did)) :
    ∃ obj pkg pkg2, file = .ok obj ∧ normalize_package obj = .ok pkg ∧
      postprocessLabels pkg = .ok pkg2 ∧
      c = { loaded := true, package := some pkg2 } ∧ did = true := by
  rw [ensure_loaded] at h
  rw [if_neg (by simp [initialCache])] at h
  cases file with
  | error e =>
    simp only [except_bind_error] at h
    exact Except.noConfusion h
  | ok obj =>
    simp only [except_bind_ok] at h
    cases hn : normalize_package obj with
    | error e =>
      rw [hn] at h
      simp only [except_bind_error] at h
      exact Except.noConfusion h
    | ok pkg =>
      rw [hn] at h
      simp only [except_bind_ok] at h
      cases hpp : postprocessLabels pkg with
      | error e =>
        rw [hpp] at h
        simp only [except_bind_error] at h
        exact Except.noConfusion h
      | ok pkg2 =>
        rw [hpp] at h
        simp only [except_bind_ok, Except.ok.injEq, Prod.mk.injEq] at h
        exact ⟨obj, pkg, pkg2, rfl, hn, hpp, h.1.symm, h.2.symm⟩

theorem normalize_package_pipeline_isSome (obj : LoadedObj) (pkg : ArtifactPackage)
    (h : normalize_package obj = .ok pkg) : pkg.pipeline.isSome = true := by
  cases obj with
  | asDict p m po rrf lm md =>
    rw [normalize_package] at h
    by_cases hs : (((p.orElse fun _ => m).orElse fun _ => po)).isSome = true
    · rw [if_pos hs] at h
      injection h with h2
      rw [← h2]
      exact hs
    · rw [if_neg hs] at h
      exact absurd h (by simp)
  | bare p =>
    rw [normalize_package] at h
    by_cases hs : p.isSome = true
    · rw [if_pos hs] at h
      injection h with h2
      rw [← h2]
      exact hs
    · rw [if_neg hs] at h
      exact absurd h (by simp)

theorem postprocessLabels_shape (pkg pkg2 : ArtifactPackage)
    (h : postprocessLabels pkg = .ok pkg2) :
    pkg2.pipeline = pkg.pipeline ∧ pkg2.label_mapping = pkg.label_mapping ∧
    (pkg2.label_mapping = none →
      pkg2.labelIdToName = none ∧ pkg2.labelNameToId = none) ∧
    (∀ lm, pkg2.label_mapping = some lm → ∃ i2n n2i,
      pkg2.labelIdToName = some i2n ∧ pkg2.labelNameToId = some n2i) := by
  cases hlm : pkg.label_mapping with
  | none =>
    simp only [postprocessLabels, hlm] at h
    injection h with h2
    rw [← h2]
    simp [hlm]
  | some lm =>
    simp only [postprocessLabels, hlm] at h
    cases hbc : buildCodec lm with
    | error e =>
      rw [hbc] at h
      simp only [except_bind_error] at h
      exact Except.noConfusion h
    | ok codec =>
      rw [hbc] at h
      simp only [except_bind_ok] at h
      injection h with h2
      rw [← h2]
      simp [hlm]

/-- C10: once the cache's loaded flag is set by a successful load, the
cached package has a non-`None` pipeline entry and carries both label-map
entries (possibly `None`), and every later call to `ensure_loaded`,
`get_pipeline`, `get_required_features` or `decode_label` returns
immediately with the same cache, the same package, and no file load —
even if the artifact file has meanwhile changed or disappeared. -/
theorem C10_loaded_cache_stable (file : Except String LoadedObj) (c : ModelCache)
    (did : Bool) (h : ensure_loaded file initialCache = .ok (c, did)) :
    c.loaded = true ∧
    (∃ pkg, c.package = some pkg ∧ pkg.pipeline.isSome = true ∧
      (pkg.label_mapping = none →
        pkg.labelIdToName = none ∧ pkg.labelNameToId = none) ∧
      (∀ lm, pkg.label_mapping = some lm → ∃ i2n n2i,
        pkg.labelIdToName = some i2n ∧ pkg.labelNameToId = some n2i)) ∧
    (∀ file2, ensure_loaded file2 c = .ok (c, false)) ∧
    (∀ file2, get_pipeline file2 c = .ok (c.package, c, false)) ∧
    (∀ file2 pred, ∃ r, decode_label file2 c pred = .ok (r, c, false)) ∧
    (∀ file2, ∃ fs, get_required_features file2 c = .ok (fs, c, false)) := by
  obtain ⟨obj, pkg, pkg2, hfile, hn, hpp, hc, hdid⟩ :=
    ensure_loaded_initial_ok file c did h
  have hpipe2 : pkg2.pipeline.isSome = true := by
    rw [(postprocessLabels_shape pkg pkg2 hpp).1]
    exact normalize_package_pipeline_isSome obj pkg hn
  have hshape := postprocessLabels_shape pkg pkg2 hpp
  have hl : c.loaded = true := by rw [hc]
  have hpk : c.package = some pkg2 := by rw [hc]
  have hel : ∀ file2, ensure_loaded file2 c = .ok (c, false) := by
    intro file2
    rw [ensure_loaded, if_pos hl]
  refine ⟨hl, ⟨pkg2, hpk, hpipe2, hshape.2.2.1, hshape.2.2.2⟩, hel, ?_, ?_, ?_⟩
  · intro file2
    rw [get_pipeline]
    rw [hel file2]
    rfl
  · intro file2 pred
    refine ⟨decodeLabelCore pkg2.labelIdToName pred, ?_⟩
    rw [decode_label]
    rw [hel file2]
    show (match c.package with
      | some pkg => Except.ok (decodeLabelCore pkg.labelIdToName pred, c, false)
      | none => Except.error "package is None") = _
    rw [hpk]
  · intro file2
    refine ⟨get_required_features_pkg pkg2, ?_⟩
    rw [get_required_features]
    rw [hel file2]
    show (match c.package with
      | some pkg => Except.ok (get_required_features_pkg pkg, c, false)
      | none => Except.error "package is None") = _
    rw [hpk]

/-- Witness for C10: loading a dict artifact with a pipeline and codec
`{1: "DDoS"}` caches a stable package that later calls reuse unchanged,
even once the file read starts failing. -/
theorem C10_loaded_cache_stable_witness :
    ensure_loaded (.ok (.asDict (some { named_steps := none }) none none
        (some ["a", "b"]) (some [(PyVal.pyInt 1, PyVal.pyStr "DDoS")]) none))
      initialCache = .ok ({ loaded := true, package := some ddosPackage }, true) ∧
    ensure_loaded (.error "file deleted")
      { loaded := true, package := some ddosPackage } =
      .ok ({ loaded := true, package := some ddosPackage }, false) := by
  constructor
  · decide
  · exact (C10_loaded_cache_stable (.ok (.asDict (some { named_steps := none })
      none none (some ["a", "b"]) (some [(PyVal.pyInt 1, PyVal.pyStr "DDoS")]) none))
      { loaded := true, package := some ddosPackage } true (by decide)).2.2.1
      (.error "file deleted")

/-! ## Concurrency model of the load-once protocol
(`model_loader.py`: `_model_cache` lines 11–15, `_cache_lock` line 15,
`_ensure_loaded` lines 60–98, `get_pipeline` lines 101–107).

Threads interleave atomic accesses to the shared cache: the unlocked
`loaded` check (line 64), lock acquisition (line 67), the locked re-check
(line 68), the deserialization (line 71), the package store (line 97), the
flag store (line 98, after the package store), lock release, and the final
read of `_model_cache["package"]`.  Each deserialization is given a fresh
reference id (the i-th load yields id i), so "exactly one deserialization"
and "all callers see the same reference" are expressible. -/

/-- Program counter of one thread running `_ensure_loaded` and then
reading the cached package. -/
inductive ThreadState where
  | start
  | waitLock
  | locked
  | loadedVal (pkg : Nat)
  | wrotePkg (pkg : Nat)
  | wroteFlag
  | finished (result : Nat)
deriving DecidableEq

/-- Shared state: the two cache fields, the lock owner, the number of
deserializations performed so far, and every thread's program counter. -/
structure LoadSystem (n : Nat) where
  loaded : Bool
  package : Option Nat
  lockHeld : Option (Fin n)
  loadCount : Nat
  threads : Fin n → ThreadState

/-- One atomic step of one thread. -/
inductive LoadStep {n : Nat} : LoadSystem n → LoadSystem n → Prop where
  | checkOutsideTrue (s : LoadSystem n) (i : Fin n) (p : Nat) :
      s.threads i = .start → s.loaded = true → s.package = some p →
      LoadStep s { s with threads := Function.update s.threads i (.finished p) }
  | checkOutsideFalse (s : LoadSystem n) (i : Fin n) :
      s.threads i = .start → s.loaded = false →
      LoadStep s { s with threads := Function.update s.threads i .waitLock }
  | acquire (s : LoadSystem n) (i : Fin n) :
      s.threads i = .waitLock → s.lockHeld = none →
      LoadStep s
        { s with
          lockHeld := some i,
          threads := Function.update s.threads i .locked }
  | checkInsideTrue (s : LoadSystem n) (i : Fin n) (p : Nat) :
      s.threads i = .locked → s.loaded = true → s.package = some p →
      LoadStep s
        { s with
          lockHeld := none,
          threads := Function.update s.threads i (.finished p) }
  | doLoad (s : LoadSystem n) (i : Fin n) :
      s.threads i = .locked → s.loaded = false →
      LoadStep s
        { s with
          loadCount := s.loadCount + 1,
          threads := Function.update s.threads i (.loadedVal (s.loadCount + 1)) }
  | writePkg (s : LoadSystem n) (i : Fin n) (p : Nat) :
      s.threads i = .loadedVal p →
      LoadStep s
        { s with
          package := some p,
          threads := Function.update s.threads i (.wrotePkg p) }
  | writeFlag (s : LoadSystem n) (i : Fin n) (p : Nat) :
      s.threads i = .wrotePkg p →
      LoadStep s
        { s with
          loaded := true,
          threads := Function.update s.threads i .wroteFlag }
  | releaseAndRead (s : LoadSystem n) (i : Fin n) (p : Nat) :
      s.threads i = .wroteFlag → s.package = some p →
      LoadStep s
        { s with
          lockHeld := none,
          threads := Function.update s.threads i (.finished p) }

/-- The initial state: nothing loaded, all threads about to call. -/
def initLoad (n : Nat) : LoadSystem n :=
  { loaded := false, package := none, lockHeld := none, loadCount := 0,
    threads := fun _ => .start }

/-- States reachable from the initial state by interleaving. -/
def LoadReachable (n : Nat) (s : LoadSystem n) : Prop :=
  Relation.ReflTransGen LoadStep (initLoad n) s

/-- Thread states that hold `_cache_lock`. -/
def inCritical : ThreadState → Bool
  | .locked => true
  | .loadedVal _ => true
  | .wrotePkg _ => true
  | .wroteFlag => true
  | _ => false

/-- The inductive invariant of the protocol. -/
structure LoadInv {n : Nat} (s : LoadSystem n) : Prop where
  own : ∀ i, inCritical (s.threads i) = true → s.lockHeld = some i
  count_le : s.loadCount ≤ 1
  pkg_val : ∀ p, s.package = some p → p = 1 ∧ s.loadCount = 1
  loaded_pkg : s.loaded = true → s.package = some 1
  lv : ∀ i p, s.threads i = .loadedVal p →
    p = 1 ∧ s.loadCount = 1 ∧ s.loaded = false ∧ s.package = none
  wp : ∀ i p, s.threads i = .wrotePkg p →
    p = 1 ∧ s.loadCount = 1 ∧ s.loaded = false ∧ s.package = some 1
  wflag : ∀ i, s.threads i = .wroteFlag → s.loaded = true ∧ s.loadCount = 1
  c1 : s.loadCount = 1 → s.loaded = true ∨
    ∃ i, (∃ p, s.threads i = .loadedVal p) ∨ ∃ p, s.threads i = .wrotePkg p
  fin_pkg : ∀ i r, s.threads i = .finished r → s.package = some r

theorem loadInv_init (n : Nat) : LoadInv (initLoad n) := by
  refine ⟨?_, ?_, ?_, ?_, ?_, ?_, ?_, ?_, ?_⟩
  · intro i hi
    exact absurd hi (by simp [initLoad, inCritical])
  · exact Nat.zero_le 1
  · intro p hp
    exact absurd hp (by simp [initLoad])
  · intro h
    exact absurd h (by simp [initLoad])
  · intro i p hp
    exact absurd hp (by simp [initLoad])
  · intro i p hp
    exact absurd hp (by simp [initLoad])
  · intro i hp
    exact absurd hp (by simp [initLoad])
  · intro h
    exact absurd h (by simp [initLoad])
  · intro i r hp
    exact absurd hp (by simp [initLoad])

theorem other_critical_absurd {n : Nat} {s : LoadSystem n} (hs : LoadInv s)
    {i j : Fin n} (hij : j ≠ i) (hi : inCritical (s.threads i) = true)
    (hj : inCritical (s.threads j) = true) {C : Prop} : C := by
  have h1 := hs.own i hi
  have h2 := hs.own j hj
  rw [h1] at h2
  injection h2 with h3
  exact absurd h3.symm hij

theorem loadInv_step {n : Nat} {s t : LoadSystem n} (hs : LoadInv s)
    (st : LoadStep s t) : LoadInv t := by
  cases st with
  | checkOutsideTrue i p hi hl hp =>
    refine ⟨?_, hs.count_le, hs.pkg_val, hs.loaded_pkg, ?_, ?_, ?_, ?_, ?_⟩ <;> dsimp only
    · intro j hj
      by_cases hij : j = i
      · subst hij
        rw [Function.update_same] at hj
        exact absurd hj (by simp [inCritical])
      · rw [Function.update_noteq hij] at hj
        exact hs.own j hj
    · intro j q hj
      by_cases hij : j = i
      · subst hij
        rw [Function.update_same] at hj
        exact ThreadState.noConfusion hj
      · rw [Function.update_noteq hij] at hj
        exact hs.lv j q hj
    · intro j q hj
      by_cases hij : j = i
      · subst hij
        rw [Function.update_same] at hj
        exact ThreadState.noConfusion hj
      · rw [Function.update_noteq hij] at hj
        exact hs.wp j q hj
    · intro j hj
      by_cases hij : j = i
      · subst hij
        rw [Function.update_same] at hj
        exact ThreadState.noConfusion hj
      · rw [Function.update_noteq hij] at hj
        exact hs.wflag j hj
    · intro hc
      rcases hs.c1 hc with h | ⟨j, hj⟩
      · exact Or.inl h
      · have hji : j ≠ i := by
          intro he
          subst he
          rcases hj with ⟨q, hq⟩ | ⟨q, hq⟩ <;> rw [hi] at hq <;>
            exact ThreadState.noConfusion hq
        refine Or.inr ⟨j, ?_⟩
        rw [Function.update_noteq hji]
        exact hj
    · intro j r hj
      by_cases hij : j = i
      · subst hij
        rw [Function.update_same] at hj
        injection hj with hr
        rw [← hr]
        exact hp
      · rw [Function.update_noteq hij] at hj
        exact hs.fin_pkg j r hj
  | checkOutsideFalse i hi hl =>
    refine ⟨?_, hs.count_le, hs.pkg_val, hs.loaded_pkg, ?_, ?_, ?_, ?_, ?_⟩ <;> dsimp only
    · intro j hj
      by_cases hij : j = i
      · subst hij
        rw [Function.update_same] at hj
        exact absurd hj (by simp [inCritical])
      · rw [Function.update_noteq hij] at hj
        exact hs.own j hj
    · intro j q hj
      by_cases hij : j = i
      · subst hij
        rw [Function.update_same] at hj
        exact ThreadState.noConfusion hj
      · rw [Function.update_noteq hij] at hj
        exact hs.lv j q hj
    · intro j q hj
      by_cases hij : j = i
      · subst hij
        rw [Function.update_same] at hj
        exact ThreadState.noConfusion hj
      · rw [Function.update_noteq hij] at hj
        exact hs.wp j q hj
    · intro j hj
      by_cases hij : j = i
      · subst hij
        rw [Function.update_same] at hj
        exact ThreadState.noConfusion hj
      · rw [Function.update_noteq hij] at hj
        exact hs.wflag j hj
    · intro hc
      rcases hs.c1 hc with h | ⟨j, hj⟩
      · exact Or.inl h
      · have hji : j ≠ i := by
          intro he
          subst he
          rcases hj with ⟨q, hq⟩ | ⟨q, hq⟩ <;> rw [hi] at hq <;>
            exact ThreadState.noConfusion hq
        refine Or.inr ⟨j, ?_⟩
        rw [Function.update_noteq hji]
        exact hj
    · intro j r hj
      by_cases hij : j = i
      · subst hij
        rw [Function.update_same] at hj
        exact ThreadState.noConfusion hj
      · rw [Function.update_noteq hij] at hj
        exact hs.fin_pkg j r hj
  | acquire i hi hlk =>
    refine ⟨?_, hs.count_le, hs.pkg_val, hs.loaded_pkg, ?_, ?_, ?_, ?_, ?_⟩ <;> dsimp only
    · intro j hj
      by_cases hij : j = i
      · subst hij
        rfl
      · rw [Function.update_noteq hij] at hj
        have h1 := hs.own j hj
        rw [hlk] at h1
        exact Option.noConfusion h1
    · intro j q hj
      by_cases hij : j = i
      · subst hij
        rw [Function.update_same] at hj
        exact ThreadState.noConfusion hj
      · rw [Function.update_noteq hij] at hj
        exact hs.lv j q hj
    · intro j q hj
      by_cases hij : j = i
      · subst hij
        rw [Function.update_same] at hj
        exact ThreadState.noConfusion hj
      · rw [Function.update_noteq hij] at hj
        exact hs.wp j q hj
    · intro j hj
      by_cases hij : j = i
      · subst hij
        rw [Function.update_same] at hj
        exact ThreadState.noConfusion hj
      · rw [Function.update_noteq hij] at hj
        exact hs.wflag j hj
    · intro hc
      rcases hs.c1 hc with h | ⟨j, hj⟩
      · exact Or.inl h
      · have hji : j ≠ i := by
          intro he
          subst he
          rcases hj with ⟨q, hq⟩ | ⟨q, hq⟩ <;> rw [hi] at hq <;>
            exact ThreadState.noConfusion hq
        refine Or.inr ⟨j, ?_⟩
        rw [Function.update_noteq hji]
        exact hj
    · intro j r hj
      by_cases hij : j = i
      · subst hij
        rw [Function.update_same] at hj
        exact ThreadState.noConfusion hj
      · rw [Function.update_noteq hij] at hj
        exact hs.fin_pkg j r hj
  | checkInsideTrue i p hi hl hp =>
    have hcriti : inCritical (s.threads i) = true := by rw [hi]; rfl
    refine ⟨?_, hs.count_le, hs.pkg_val, hs.loaded_pkg, ?_, ?_, ?_, ?_, ?_⟩ <;> dsimp only
    · intro j hj
      by_cases hij : j = i
      · subst hij
        rw [Function.update_same] at hj
        exact absurd hj (by simp [inCritical])
      · rw [Function.update_noteq hij] at hj
        exact other_critical_absurd hs hij hcriti hj
    · intro j q hj
      by_cases hij : j = i
      · subst hij
        rw [Function.update_same] at hj
        exact ThreadState.noConfusion hj
      · rw [Function.update_noteq hij] at hj
        exact hs.lv j q hj
    · intro j q hj
      by_cases hij : j = i
      · subst hij
        rw [Function.update_same] at hj
        exact ThreadState.noConfusion hj
      · rw [Function.update_noteq hij] at hj
        exact hs.wp j q hj
    · intro j hj
      by_cases hij : j = i
      · subst hij
        rw [Function.update_same] at hj
        exact ThreadState.noConfusion hj
      · rw [Function.update_noteq hij] at hj
        exact hs.wflag j hj
    · intro hc
      rcases hs.c1 hc with h | ⟨j, hj⟩
      · exact Or.inl h
      · have hji : j ≠ i := by
          intro he
          subst he
          rcases hj with ⟨q, hq⟩ | ⟨q, hq⟩ <;> rw [hi] at hq <;>
            exact ThreadState.noConfusion hq
        refine Or.inr ⟨j, ?_⟩
        rw [Function.update_noteq hji]
        exact hj
    · intro j r hj
      by_cases hij : j = i
      · subst hij
        rw [Function.update_same] at hj
        injection hj with hr
        rw [← hr]
        exact hp
      · rw [Function.update_noteq hij] at hj
        exact hs.fin_pkg j r hj
  | doLoad i hi hl =>
    have hlock : s.lockHeld = some i := hs.own i (by rw [hi]; rfl)
    have hcount : s.loadCount = 0 := by
      by_contra hne
      have hc : s.loadCount = 1 := by
        have := hs.count_le
        omega
      rcases hs.c1 hc with hld | ⟨j, hj⟩
      · rw [hld] at hl
        exact Bool.noConfusion hl
      · have hcrit : inCritical (s.threads j) = true := by
          rcases hj with ⟨q, hq⟩ | ⟨q, hq⟩ <;> rw [hq] <;> rfl
        have hj2 := hs.own j hcrit
        rw [hlock] at hj2
        injection hj2 with hji
        rcases hj with ⟨q, hq⟩ | ⟨q, hq⟩ <;> rw [← hji, hi] at hq <;>
          exact ThreadState.noConfusion hq
    have hpkg : s.package = none := by
      cases hp : s.package with
      | none => rfl
      | some p =>
        have h1 := (hs.pkg_val p hp).2
        rw [hcount] at h1
        exact Nat.noConfusion h1
    refine ⟨?_, ?_, ?_, ?_, ?_, ?_, ?_, ?_, ?_⟩ <;> dsimp only
    · intro j hj
      by_cases hij : j = i
      · subst hij
        exact hlock
      · rw [Function.update_noteq hij] at hj
        exact hs.own j hj
    · omega
    · intro p hp2
      rw [hpkg] at hp2
      exact Option.noConfusion hp2
    · intro h
      rw [hl] at h
      exact Bool.noConfusion h
    · intro j q hj
      by_cases hij : j = i
      · subst hij
        rw [Function.update_same] at hj
        injection hj with hq
        exact ⟨by omega, by omega, hl, hpkg⟩
      · rw [Function.update_noteq hij] at hj
        exact other_critical_absurd hs hij (by rw [hi]; rfl) (by rw [hj]; rfl)
    · intro j q hj
      by_cases hij : j = i
      · subst hij
        rw [Function.update_same] at hj
        exact ThreadState.noConfusion hj
      · rw [Function.update_noteq hij] at hj
        have h1 := (hs.wp j q hj).2.1
        rw [hcount] at h1
        exact Nat.noConfusion h1
    · intro j hj
      by_cases hij : j = i
      · subst hij
        rw [Function.update_same] at hj
        exact ThreadState.noConfusion hj
      · rw [Function.update_noteq hij] at hj
        have h1 := (hs.wflag j hj).1
        rw [hl] at h1
        exact Bool.noConfusion h1
    · intro _
      refine Or.inr ⟨i, Or.inl ⟨s.loadCount + 1, ?_⟩⟩
      rw [Function.update_same]
    · intro j r hj
      by_cases hij : j = i
      · subst hij
        rw [Function.update_same] at hj
        exact ThreadState.noConfusion hj
      · rw [Function.update_noteq hij] at hj
        have h1 := hs.fin_pkg j r hj
        rw [hpkg] at h1
        exact Option.noConfusion h1
  | writePkg i p hi =>
    have hlock : s.lockHeld = some i := hs.own i (by rw [hi]; rfl)
    obtain ⟨hp1, hc1, hl, hpk⟩ := hs.lv i p hi
    refine ⟨?_, hs.count_le, ?_, ?_, ?_, ?_, ?_, ?_, ?_⟩ <;> dsimp only
    · intro j hj
      by_cases hij : j = i
      · subst hij
        exact hlock
      · rw [Function.update_noteq hij] at hj
        exact hs.own j hj
    · intro q hq
      injection hq with h2
      rw [← h2]
      exact ⟨hp1, hc1⟩
    · intro h
      rw [hl] at h
      exact Bool.noConfusion h
    · intro j q hj
      by_cases hij : j = i
      · subst hij
        rw [Function.update_same] at hj
        exact ThreadState.noConfusion hj
      · rw [Function.update_noteq hij] at hj
        exact other_critical_absurd hs hij (by rw [hi]; rfl) (by rw [hj]; rfl)
    · intro j q hj
      by_cases hij : j = i
      · subst hij
        rw [Function.update_same] at hj
        injection hj with h2
        refine ⟨?_, hc1, hl, ?_⟩
        · rw [← h2]
          exact hp1
        · rw [hp1]
      · rw [Function.update_noteq hij] at hj
        exact other_critical_absurd hs hij (by rw [hi]; rfl) (by rw [hj]; rfl)
    · intro j hj
      by_cases hij : j = i
      · subst hij
        rw [Function.update_same] at hj
        exact ThreadState.noConfusion hj
      · rw [Function.update_noteq hij] at hj
        have h1 := (hs.wflag j hj).1
        rw [hl] at h1
        exact Bool.noConfusion h1
    · intro _
      refine Or.inr ⟨i, Or.inr ⟨p, ?_⟩⟩
      rw [Function.update_same]
    · intro j r hj
      by_cases hij : j = i
      · subst hij
        rw [Function.update_same] at hj
        exact ThreadState.noConfusion hj
      · rw [Function.update_noteq hij] at hj
        have h1 := hs.fin_pkg j r hj
        rw [hpk] at h1
        exact Option.noConfusion h1
  | writeFlag i p hi =>
    have hlock : s.lockHeld = some i := hs.own i (by rw [hi]; rfl)
    obtain ⟨hp1, hc1, hl, hpk⟩ := hs.wp i p hi
    refine ⟨?_, hs.count_le, hs.pkg_val, ?_, ?_, ?_, ?_, ?_, ?_⟩ <;> dsimp only
    · intro j hj
      by_cases hij : j = i
      · subst hij
        exact hlock
      · rw [Function.update_noteq hij] at hj
        exact hs.own j hj
    · intro _
      exact hpk
    · intro j q hj
      by_cases hij : j = i
      · subst hij
        rw [Function.update_same] at hj
        exact ThreadState.noConfusion hj
      · rw [Function.update_noteq hij] at hj
        exact other_critical_absurd hs hij (by rw [hi]; rfl) (by rw [hj]; rfl)
    · intro j q hj
      by_cases hij : j = i
      · subst hij
        rw [Function.update_same] at hj
        exact ThreadState.noConfusion hj
      · rw [Function.update_noteq hij] at hj
        exact other_critical_absurd hs hij (by rw [hi]; rfl) (by rw [hj]; rfl)
    · intro j hj
      exact ⟨rfl, hc1⟩
    · intro _
      exact Or.inl rfl
    · intro j r hj
      by_cases hij : j = i
      · subst hij
        rw [Function.update_same] at hj
        exact ThreadState.noConfusion hj
      · rw [Function.update_noteq hij] at hj
        exact hs.fin_pkg j r hj
  | releaseAndRead i p hi hp =>
    have hlock : s.lockHeld = some i := hs.own i (by rw [hi]; rfl)
    obtain ⟨hld, hc1⟩ := hs.wflag i hi
    refine ⟨?_, hs.count_le, hs.pkg_val, hs.loaded_pkg, ?_, ?_, ?_, ?_, ?_⟩ <;> dsimp only
    · intro j hj
      by_cases hij : j = i
      · subst hij
        rw [Function.update_same] at hj
        exact absurd hj (by simp [inCritical])
      · rw [Function.update_noteq hij] at hj
        exact other_critical_absurd hs hij (by rw [hi]; rfl) hj
    · intro j q hj
      by_cases hij : j = i
      · subst hij
        rw [Function.update_same] at hj
        exact ThreadState.noConfusion hj
      · rw [Function.update_noteq hij] at hj
        exact other_critical_absurd hs hij (by rw [hi]; rfl) (by rw [hj]; rfl)
    · intro j q hj
      by_cases hij : j = i
      · subst hij
        rw [Function.update_same] at hj
        exact ThreadState.noConfusion hj
      · rw [Function.update_noteq hij] at hj
        exact other_critical_absurd hs hij (by rw [hi]; rfl) (by rw [hj]; rfl)
    · intro j hj
      by_cases hij : j = i
      · subst hij
        rw [Function.update_same] at hj
        exact ThreadState.noConfusion hj
      · rw [Function.update_noteq hij] at hj
        exact hs.wflag j hj
    · intro hc
      exact Or.inl hld
    · intro j r hj
      by_cases hij : j = i
      · subst hij
        rw [Function.update_same] at hj
        injection hj with h2
        rw [← h2]
        exact hp
      · rw [Function.update_noteq hij] at hj
        exact hs.fin_pkg j r hj

theorem loadInv_reachable {n : Nat} {s : LoadSystem n} (h : LoadReachable n s) :
    LoadInv s := by
  induction h with
  | refl => exact loadInv_init n
  | tail _ st ih => exact loadInv_step ih st

/-- C8: under every interleaving of any number of threads running the
double-checked-locking load protocol of `_ensure_loaded`, at most one
deserialization is ever performed, and every caller that completes holds
the one cached package reference — so all completed callers (then and
afterwards) agree on the same reference. -/
theorem C8_load_at_most_once (n : Nat) (s : LoadSystem n)
    (h : LoadReachable n s) :
    s.loadCount ≤ 1 ∧
    (∀ i r, s.threads i = ThreadState.finished r → s.package = some r) ∧
    (∀ i j ri rj, s.threads i = ThreadState.finished ri →
      s.threads j = ThreadState.finished rj → ri = rj) := by
  have hinv := loadInv_reachable h
  refine ⟨hinv.count_le, hinv.fin_pkg, ?_⟩
  intro i j ri rj hi hj
  have h1 := hinv.fin_pkg i ri hi
  have h2 := hinv.fin_pkg j rj hj
  rw [h1] at h2
  exact Option.some.inj h2

theorem LoadStep.cast {n : Nat} {s t t' : LoadSystem n} (h : LoadStep s t)
    (he : t = t') : LoadStep s t' := he ▸ h

theorem fin1_threads_eq (f : Fin 1 → ThreadState) (v : ThreadState)
    (i : Fin 1) : Function.update f i v = fun _ => v := by
  funext j
  have h1 : j = i := Subsingleton.elim j i
  rw [h1, Function.update_same]

/-- Intermediate states of the one-thread execution trace. -/
def loadS1 : LoadSystem 1 :=
  { loaded := false, package := none, lockHeld := none, loadCount := 0,
    threads := fun _ => .waitLock }

def loadS2 : LoadSystem 1 :=
  { loaded := false, package := none, lockHeld := some 0, loadCount := 0,
    threads := fun _ => .locked }

def loadS3 : LoadSystem 1 :=
  { loaded := false, package := none, lockHeld := some 0, loadCount := 1,
    threads := fun _ => .loadedVal 1 }

def loadS4 : LoadSystem 1 :=
  { loaded := false, package := some 1, lockHeld := some 0, loadCount := 1,
    threads := fun _ => .wrotePkg 1 }

def loadS5 : LoadSystem 1 :=
  { loaded := true, package := some 1, lockHeld := some 0, loadCount := 1,
    threads := fun _ => .wroteFlag }

/-- The state after the single thread has completed the whole load. -/
def loadedFinal : LoadSystem 1 :=
  { loaded := true, package := some 1, lockHeld := none, loadCount := 1,
    threads := fun _ => .finished 1 }

theorem loadedFinal_reachable : LoadReachable 1 loadedFinal := by
  have h1 : LoadStep (initLoad 1) loadS1 :=
    LoadStep.cast (LoadStep.checkOutsideFalse (initLoad 1) 0 rfl rfl)
      (by simp only [initLoad, loadS1]; rw [fin1_threads_eq])
  have h2 : LoadStep loadS1 loadS2 :=
    LoadStep.cast (LoadStep.acquire loadS1 0 rfl rfl)
      (by simp only [loadS1, loadS2]; rw [fin1_threads_eq])
  have h3 : LoadStep loadS2 loadS3 :=
    LoadStep.cast (LoadStep.doLoad loadS2 0 rfl rfl)
      (by simp only [loadS2, loadS3]; rw [fin1_threads_eq])
  have h4 : LoadStep loadS3 loadS4 :=
    LoadStep.cast (LoadStep.writePkg loadS3 0 1 rfl)
      (by simp only [loadS3, loadS4]; rw [fin1_threads_eq])
  have h5 : LoadStep loadS4 loadS5 :=
    LoadStep.cast (LoadStep.writeFlag loadS4 0 1 rfl)
      (by simp only [loadS4, loadS5]; rw [fin1_threads_eq])
  have h6 : LoadStep loadS5 loadedFinal :=
    LoadStep.cast (LoadStep.releaseAndRead loadS5 0 1 rfl rfl)
      (by simp only [loadS5, loadedFinal]; rw [fin1_threads_eq])
  exact .tail (.tail (.tail (.tail (.tail (.tail .refl h1) h2) h3) h4) h5) h6

/-- Witness for C8: the complete single-thread execution — outside check,
lock, load, publish package, publish flag, release-and-read — ends with
exactly one deserialization and the caller holding the cached reference. -/
theorem C8_load_at_most_once_witness :
    loadedFinal.loadCount ≤ 1 ∧ loadedFinal.package = some 1 := by
  have h := C8_load_at_most_once 1 loadedFinal loadedFinal_reachable
  exact ⟨h.1, h.2.1 0 1 rfl⟩
